import Mathlib

/-!
Shallow embedding of the attachment export orchestrator of the
`zotero-pdf2md` repository, together with theorems settling the frozen
claims about it.  The repository contains two revisions of the exporter:
`src/zotero_files2md` (the current Docling-based revision) and
`src/zotero_pdf2md` (the earlier PyMuPDF-based revision).  Every
definition below is translated from one of those source files; the doc
comment of each definition names the file and function it embeds.

Modelling conventions:
* filesystem paths are lists of path segments (`FsPath`);
* Python exceptions become `Except` values; a `try`/`except` block
  becomes a `match` on the `Except`;
* external collaborators (the filesystem, the network download, the
  Docling render call, the torch runtime) are oracles passed in as
  explicit function arguments, so the orchestration logic stays a pure,
  executable function of those oracles;
* observable side effects (directory creation, file writes, render
  invocations, cache releases) are recorded in an explicit `Effect`
  trace returned next to the result.
-/

/-- Filesystem paths, modelled as lists of path segments.
`p / q` in the source becomes `p ++ [q]`. -/
abbrev FsPath := List String

/-- The `status` field of `ConversionResult`
(`zotero_files2md/converter.py`, `zotero_pdf2md/converter.py`):
`Literal["converted", "skipped", "dry-run"]`. -/
inductive Status where
  | converted
  | skipped
  | dryRun
deriving DecidableEq, Repr

/-- Embeds `AttachmentMetadata` (`zotero_files2md/models.py`), restricted to the
fields the orchestrator reads.  `Option String` models `str | None`. -/
structure AttachmentMetadata where
  attachmentKey : String
  parentItemKey : Option String
  title : Option String
  parentTitle : Option String
  filename : Option String
  parentCitationKey : Option String
deriving DecidableEq, Repr

/-- Embeds `ConversionResult` (`zotero_files2md/converter.py`).  The `source`
field is kept as a plain string because the source only ever stores a
single-component temp-file name there. -/
structure ConversionResult where
  source : String
  output : FsPath
  status : Status
deriving DecidableEq, Repr

/-- Embeds `ExportSummary` (`zotero_files2md/exporter.py`, lines 28-36). -/
structure ExportSummary where
  processed : Nat
  converted : Nat
  skipped : Nat
  dryRun : Nat
  outputPaths : List FsPath
deriving DecidableEq, Repr

/-- Embeds `summarize_results` (`zotero_files2md/exporter.py`, lines 407-427;
identical in `zotero_pdf2md/exporter.py`, lines 134-154).  Python
`sum(result.status == tag for result in results)` is `List.countP`. -/
def summarize_results (results : List ConversionResult) : ExportSummary :=
  { processed := results.length
    converted := results.countP (fun r => r.status == Status.converted)
    skipped := results.countP (fun r => r.status == Status.skipped)
    dryRun := results.countP (fun r => r.status == Status.dryRun)
    outputPaths := results.map (fun r => r.output) }

/-- Claim C1.  For every run, the `ExportSummary` returned by
`summarize_results` satisfies `processed = converted + skipped + dry_run`:
`processed` is the number of aggregated outcome records and each count is
the number of outcomes carrying that status tag, and every outcome
carries exactly one of the three tags. -/
theorem summarize_results_outcome_complete (results : List ConversionResult) :
    (summarize_results results).processed =
      (summarize_results results).converted + (summarize_results results).skipped +
        (summarize_results results).dryRun := by
  simp only [summarize_results]
  induction results with
  | nil => rfl
  | cons r rs ih =>
    simp only [List.length_cons, List.countP_cons]
    cases h : r.status <;> simp [h] <;> omega

/-- Claim C10.  The `output_paths` collection of the summary is exactly the
outcome-by-outcome image of the aggregated results — one entry per
outcome, in the same order, including the paths of `skipped` and
`dry-run` outcomes — so its length equals `processed`. -/
theorem summarize_results_output_paths (results : List ConversionResult) :
    (summarize_results results).outputPaths = results.map (fun r => r.output) ∧
      (summarize_results results).outputPaths.length = (summarize_results results).processed := by
  constructor
  · rfl
  · simp [summarize_results]

/-- Python `a or b` for an optional string `a` and a string default `b`:
`None` and the empty string are falsy. -/
def pyOrStr (a : Option String) (d : String) : String :=
  match a with
  | some s => if s = "" then d else s
  | none => d

/-- Python `a or b` for two optional strings: `None` and the empty
string are falsy. -/
def pyOrOpt (a b : Option String) : Option String :=
  match a with
  | some s => if s = "" then b else some s
  | none => b

/-- The character class kept by the slug-cleanup regex
`[^A-Za-z0-9._-]+` (`zotero_files2md/utils.py`, line 32). -/
def isSlugChar (c : Char) : Bool :=
  c.isAlphanum || c == '.' || c == '_' || c == '-'

/-- Embeds the substitution of the cleanup regex: replace every maximal run of
characters outside the slug class with one hyphen.  The boolean records
whether the previous character belonged to such a run. -/
def subNonSlugRuns : Bool → List Char → List Char
  | _, [] => []
  | inRun, c :: rest =>
    if isSlugChar c then c :: subNonSlugRuns false rest
    else if inRun then subNonSlugRuns true rest
    else '-' :: subNonSlugRuns true rest

/-- Embeds the hyphen-collapsing substitution: collapse every run of hyphens to a
single hyphen (the first of the run is kept, the rest dropped). -/
def collapseHyphens : Bool → List Char → List Char
  | _, [] => []
  | prevHyphen, c :: rest =>
    if c == '-' then
      if prevHyphen then collapseHyphens true rest
      else '-' :: collapseHyphens true rest
    else c :: collapseHyphens false rest

/-- Python `str.strip(chars)`: drop characters of `bad` from both ends. -/
def stripChars (bad : List Char) (l : List Char) : List Char :=
  ((l.dropWhile (fun c => bad.contains c)).reverse.dropWhile
    (fun c => bad.contains c)).reverse

/-- Python `str.strip()`: drop whitespace from both ends. -/
def pyStrip (l : List Char) : List Char :=
  ((l.dropWhile Char.isWhitespace).reverse.dropWhile Char.isWhitespace).reverse

/-- Embeds `_clean_slug_text` (`zotero_files2md/utils.py`, lines 35-38):
NFKD-normalise, strip whitespace, replace non-slug runs with a hyphen,
collapse hyphen runs, strip `-._` from both ends.  NFKD normalisation is
modelled as the identity map, which it is on ASCII input. -/
def cleanSlugText (s : String) : String :=
  ⟨stripChars ['-', '.', '_']
    (collapseHyphens false (subNonSlugRuns false (pyStrip s.toList)))⟩

/-- Embeds `slugify` (`zotero_files2md/utils.py`, lines 41-56): clean the
preferred value, fall back to the cleaned fallback, then to the literal
token `item`, and truncate to 120 characters. -/
def slugify (value : Option String) (fallback : String) : String :=
  let text := cleanSlugText (value.getD "")
  let text := if text = "" then cleanSlugText fallback else text
  let text := if text = "" then "item" else text
  ⟨text.toList.take 120⟩

/-- Embeds `ReferenceFolderName`, the two-valued literal type of the
folder-naming strategy consumed by `compute_output_path`. -/
inductive ReferenceFolderName where
  | citationKey
  | itemTitle
deriving DecidableEq, Repr

/-- Embeds `compute_output_path` (`zotero_files2md/utils.py`, lines 65-95).
The `ValueError` branch for an invalid strategy is unreachable because
the strategy type has exactly the two literal values. -/
def compute_output_path (attachment : AttachmentMetadata) (outputDir : FsPath)
    (referenceFolderName : ReferenceFolderName) : FsPath :=
  let pvPf : Option String × String :=
    match referenceFolderName with
    | ReferenceFolderName.itemTitle =>
        (attachment.parentTitle,
          pyOrStr attachment.parentItemKey (pyOrStr attachment.parentCitationKey "item"))
    | ReferenceFolderName.citationKey =>
        (pyOrOpt attachment.parentCitationKey attachment.parentTitle,
          pyOrStr attachment.parentItemKey "item")
  let parentSlug := slugify pvPf.1 pvPf.2
  let filenameBase := slugify attachment.title attachment.attachmentKey
  outputDir ++ [parentSlug, filenameBase ++ ".md"]

/-- The folder component exactly as the words of claim C7 describe it
(spec sentence, for comparison with `compute_output_path`): a preference
chain over the named fields — for `citation-key` the parent citation
key, then the parent title, then the parent identifier; for `item-title`
the parent title, then the parent identifier — falling back to the
literal token `item`, slugified. -/
def claimFolderC7 : ReferenceFolderName → AttachmentMetadata → String
  | ReferenceFolderName.citationKey, a =>
      slugify (pyOrOpt a.parentCitationKey (pyOrOpt a.parentTitle a.parentItemKey)) "item"
  | ReferenceFolderName.itemTitle, a =>
      slugify (pyOrOpt a.parentTitle a.parentItemKey) "item"

/-- The output path exactly as claim C7 describes it: the claimed folder
component, then the slugified item title falling back to the item key. -/
def claimPathC7 (a : AttachmentMetadata) (outputDir : FsPath)
    (s : ReferenceFolderName) : FsPath :=
  outputDir ++ [claimFolderC7 s a, slugify a.title a.attachmentKey ++ ".md"]

/-- An attachment with no parent title and no parent item key but with a
parent citation key: under strategy `item-title` the code falls back to
the citation key, which the words of claim C7 omit. -/
def attC7 : AttachmentMetadata :=
  { attachmentKey := "ABCD1234"
    parentItemKey := none
    title := some "Title"
    parentTitle := none
    filename := none
    parentCitationKey := some "K123" }

/-- Claim C7, counterexample.  Under strategy `item-title`, an attachment
whose parent title and parent identifier are both absent but whose
parent citation key is `K123` is placed by the code in folder `K123`
(the code falls back `parent_item_key or parent_citation_key or "item"`),
while the chain stated in the claim — parent title, then parent
identifier, then the literal `item` — yields folder `item`. -/
theorem compute_output_path_claim_counterexample :
    compute_output_path attC7 ["out"] ReferenceFolderName.itemTitle
        = ["out", "K123", "Title.md"] ∧
      claimPathC7 attC7 ["out"] ReferenceFolderName.itemTitle
        = ["out", "item", "Title.md"] ∧
      compute_output_path attC7 ["out"] ReferenceFolderName.itemTitle ≠
        claimPathC7 attC7 ["out"] ReferenceFolderName.itemTitle := by
  refine ⟨by decide, by decide, by decide⟩

/-- The folder component as amended: `slugify(value, fallback)` where for
`citation-key` the value is the parent citation key or else the parent
title and the fallback is the parent identifier or else `item`, and for
`item-title` the value is the parent title and the fallback is the
parent identifier, or else the parent citation key, or else `item`. -/
def amendedFolderC7 : ReferenceFolderName → AttachmentMetadata → String
  | ReferenceFolderName.citationKey, a =>
      slugify (pyOrOpt a.parentCitationKey a.parentTitle) (pyOrStr a.parentItemKey "item")
  | ReferenceFolderName.itemTitle, a =>
      slugify a.parentTitle (pyOrStr a.parentItemKey (pyOrStr a.parentCitationKey "item"))

/-- Claim C7, amended.  For every item, strategy and output directory, the
resolved path is the output directory, then the amended folder
component, then the slugified item title (falling back to the item key)
with the `.md` extension. -/
theorem compute_output_path_amended (a : AttachmentMetadata) (outputDir : FsPath)
    (s : ReferenceFolderName) :
    compute_output_path a outputDir s =
      outputDir ++ [amendedFolderC7 s a, slugify a.title a.attachmentKey ++ ".md"] := by
  cases s <;> rfl

/-- Python `a or b` for an optional integer `a` (`settings.max_workers or
len(attachments_to_process)`): `None` and `0` are falsy. -/
def pyOrNat (a : Option Nat) (d : Nat) : Nat :=
  match a with
  | some v => if v = 0 then d else v
  | none => d

/-- The worker-pool shape computed by `export_library` in the
accelerator regime (`zotero_files2md/exporter.py`, lines 196-215). -/
structure WorkerPoolPlan where
  totalWorkers : Nat
  gpusUsed : Nat
  processesPerGpu : List Nat
deriving DecidableEq, Repr

/-- The accelerator-regime scheduler computation of `export_library`
(`zotero_files2md/exporter.py`, lines 196-215): `total_workers`,
`gpus_used`, and the per-GPU worker assignment `processes_per_gpu`
(indexed by GPU id, which coincides with the enumeration index because
`gpu_ids = list(range(gpu_count))[:gpus_used] = range(gpus_used)`). -/
def planWorkerPool (n : Nat) (maxWorkers : Option Nat) (gpuCount : Nat)
    (workersPerGpu : Nat) : WorkerPoolPlan :=
  let maxWorkersTotal := pyOrNat maxWorkers n
  let maxWorkersByGpu := gpuCount * workersPerGpu
  let totalWorkers := max 1 (min n (min maxWorkersTotal maxWorkersByGpu))
  let gpusUsed := min gpuCount totalWorkers
  let baseWorkers := totalWorkers / gpusUsed
  let remainder := totalWorkers % gpusUsed
  { totalWorkers := totalWorkers
    gpusUsed := gpusUsed
    processesPerGpu :=
      (List.range gpusUsed).map (fun idx => baseWorkers + if idx < remainder then 1 else 0) }

/-- Sum of `base`-plus-indicator assignments over `range n`. -/
theorem sum_range_base_add_indicator (n base rem : Nat) :
    ((List.range n).map (fun idx => base + if idx < rem then 1 else 0)).sum =
      n * base + min rem n := by
  induction n with
  | zero => simp
  | succ k ih =>
    rw [List.range_succ, List.map_append, List.sum_append, ih]
    simp only [List.map_cons, List.map_nil, List.sum_cons, List.sum_nil]
    have hsm : (k + 1) * base = k * base + base := Nat.succ_mul k base
    by_cases h : k < rem
    · simp only [if_pos h]
      omega
    · simp only [if_neg h]
      omega

/-- Claim C2.  In the accelerator regime with accepted work-set size
`n ≥ 1`, optional user worker cap, accelerator count `gpuCount ≥ 1` and
per-accelerator cap `workersPerGpu ≥ 1`, the scheduler computes
`total_workers = max(1, min(n, user_cap or n, gpuCount * workersPerGpu))`,
uses `min(gpuCount, total_workers)` accelerators, and assigns workers so
that the per-accelerator assignments sum exactly to `total_workers`, no
two assignments differ by more than one, and exactly the first
`total_workers mod gpus_used` accelerator ids receive the extra worker. -/
theorem planWorkerPool_spec (n : Nat) (maxWorkers : Option Nat) (gpuCount : Nat)
    (workersPerGpu : Nat) (p : WorkerPoolPlan)
    (hn : 1 ≤ n) (hg : 1 ≤ gpuCount) (hw : 1 ≤ workersPerGpu)
    (hp : p = planWorkerPool n maxWorkers gpuCount workersPerGpu) :
    p.totalWorkers = max 1 (min n (min (pyOrNat maxWorkers n) (gpuCount * workersPerGpu))) ∧
      p.gpusUsed = min gpuCount p.totalWorkers ∧
      1 ≤ p.gpusUsed ∧
      p.processesPerGpu.length = p.gpusUsed ∧
      p.processesPerGpu.sum = p.totalWorkers ∧
      (∀ x ∈ p.processesPerGpu, ∀ y ∈ p.processesPerGpu, x ≤ y + 1) ∧
      (∀ idx, (h : idx < p.processesPerGpu.length) →
        (p.processesPerGpu.get ⟨idx, h⟩ = p.totalWorkers / p.gpusUsed + 1 ↔
          idx < p.totalWorkers % p.gpusUsed)) := by
  subst hp
  have e1 : (planWorkerPool n maxWorkers gpuCount workersPerGpu).totalWorkers =
      max 1 (min n (min (pyOrNat maxWorkers n) (gpuCount * workersPerGpu))) := rfl
  have e2 : (planWorkerPool n maxWorkers gpuCount workersPerGpu).gpusUsed =
      min gpuCount (planWorkerPool n maxWorkers gpuCount workersPerGpu).totalWorkers := rfl
  have e3 : (planWorkerPool n maxWorkers gpuCount workersPerGpu).processesPerGpu =
      (List.range (planWorkerPool n maxWorkers gpuCount workersPerGpu).gpusUsed).map
        (fun idx =>
          (planWorkerPool n maxWorkers gpuCount workersPerGpu).totalWorkers /
              (planWorkerPool n maxWorkers gpuCount workersPerGpu).gpusUsed +
            if idx <
                (planWorkerPool n maxWorkers gpuCount workersPerGpu).totalWorkers %
                  (planWorkerPool n maxWorkers gpuCount workersPerGpu).gpusUsed
            then 1 else 0) := rfl
  set T := (planWorkerPool n maxWorkers gpuCount workersPerGpu).totalWorkers with hT
  set G := (planWorkerPool n maxWorkers gpuCount workersPerGpu).gpusUsed with hG
  have htot1 : 1 ≤ T := by rw [e1]; exact le_max_left 1 _
  have hgu1 : 1 ≤ G := by rw [e2]; exact le_min hg htot1
  have hrem : T % G < G := Nat.mod_lt _ (by omega)
  refine ⟨e1, e2, hgu1, ?_, ?_, ?_, ?_⟩
  · rw [e3]
    simp
  · rw [e3, sum_range_base_add_indicator, min_eq_left (le_of_lt hrem)]
    exact Nat.div_add_mod T G
  · intro x hx y hy
    rw [e3] at hx hy
    simp only [List.mem_map, List.mem_range] at hx hy
    obtain ⟨i, _, hi⟩ := hx
    obtain ⟨j, _, hj⟩ := hy
    subst hi hj
    by_cases h1 : i < T % G <;> by_cases h2 : j < T % G <;> simp [h1, h2] <;> omega
  · intro idx h
    have hget : (planWorkerPool n maxWorkers gpuCount workersPerGpu).processesPerGpu.get
        ⟨idx, h⟩ = T / G + if idx < T % G then 1 else 0 := by
      simp only [List.get_eq_getElem]
      have h3 : idx < ((List.range G).map
          (fun idx => T / G + if idx < T % G then 1 else 0)).length := by
        rw [← e3]
        exact h
      rw [List.getElem_of_eq e3 h]
      simp
    rw [hget]
    by_cases hc : idx < T % G <;> simp [hc]

/-- Claim C2, witness.  Instantiation at the spec example: six items, no
user cap, two accelerators, two workers each: four total workers over
two accelerators, two workers each. -/
theorem planWorkerPool_spec_witness :
    (1 ≤ 6 ∧ 1 ≤ 2 ∧
      planWorkerPool 6 none 2 2 =
        { totalWorkers := 4, gpusUsed := 2, processesPerGpu := [2, 2] }) ∧
      (planWorkerPool 6 none 2 2).processesPerGpu.sum =
        (planWorkerPool 6 none 2 2).totalWorkers := by
  refine ⟨⟨by decide, by decide, by decide⟩, ?_⟩
  exact (planWorkerPool_spec 6 none 2 2 _ (by decide) (by decide) (by decide) rfl).2.2.2.2.1

/-- Embeds the source label built from the filename or the key, the value
label stored on synthesized outcomes (`zotero_files2md/exporter.py`,
lines 145, 166, 177, 356). -/
def sourceName (a : AttachmentMetadata) : String :=
  pyOrStr a.filename a.attachmentKey

/-- The output path the exporter resolves for an attachment:
`compute_output_path(attachment, settings.output_dir)` with the default
`citation-key` strategy (`zotero_files2md/exporter.py`, lines 142, 156
and 353). -/
def exporterOutputPath (outputDir : FsPath) (a : AttachmentMetadata) : FsPath :=
  compute_output_path a outputDir ReferenceFolderName.citationKey

/-- A synthesized `skipped` outcome for an attachment rejected by the
pre-concurrency filter (`zotero_files2md/exporter.py`, lines 164-181). -/
def skippedOutcome (outputDir : FsPath) (a : AttachmentMetadata) : ConversionResult :=
  { source := sourceName a
    output := exporterOutputPath outputDir a
    status := Status.skipped }

/-- The last `/`-separated component of a name (`pathlib` `Path.name`). -/
def lastComponent (s : String) : String :=
  ⟨(s.toList.reverse.takeWhile (fun c => c != '/')).reverse⟩

/-- Embeds the suffix rule of `pathlib`: the part of the last component from
its final dot, empty when there is no dot, when the dot is the first
character (hidden file) or when the dot is the last character. -/
def pathSuffix (s : String) : String :=
  let name := lastComponent s
  let rev := name.toList.reverse
  let afterRev := rev.takeWhile (fun c => c != '.')
  match rev.dropWhile (fun c => c != '.') with
  | [] => ""
  | _ :: stemRev =>
    if stemRev = [] then ""
    else if afterRev = [] then ""
    else ⟨'.' :: afterRev.reverse⟩

/-- Embeds `_temp_path_for_attachment` (`zotero_files2md/exporter.py`, lines
395-404): the scratch download location, the attachment key plus the
original file extension; the temp-directory component is constant per
run and elided. -/
def tempName (a : AttachmentMetadata) : String :=
  a.attachmentKey ++ pathSuffix (pyOrStr a.filename a.attachmentKey)

/-- The dedup and skip-existing filter of `export_library`
(`zotero_files2md/exporter.py`, lines 152-185): the pre-concurrency loop
over the attachments, threading the `seen_output_paths` set, producing
the synthesized `skipped` results (in source order) and the accepted
work list `attachments_to_process` (in source order).  `onDisk` is the
filesystem-existence oracle (`output_path.exists()`); `overwrite` is
`settings.overwrite`. -/
def exportFilter (onDisk : FsPath → Bool) (overwrite : Bool) (outputDir : FsPath) :
    List AttachmentMetadata → List FsPath →
      List ConversionResult × List AttachmentMetadata
  | [], _ => ([], [])
  | a :: rest, seen =>
    let outputPath := exporterOutputPath outputDir a
    if outputPath ∈ seen then
      (skippedOutcome outputDir a :: (exportFilter onDisk overwrite outputDir rest seen).1,
        (exportFilter onDisk overwrite outputDir rest seen).2)
    else if onDisk outputPath && !overwrite then
      (skippedOutcome outputDir a :: (exportFilter onDisk overwrite outputDir rest seen).1,
        (exportFilter onDisk overwrite outputDir rest seen).2)
    else
      ((exportFilter onDisk overwrite outputDir rest (outputPath :: seen)).1,
        a :: (exportFilter onDisk overwrite outputDir rest (outputPath :: seen)).2)

/-- Embeds the outcome computation of `_process_attachment`
(`zotero_files2md/exporter.py`, lines 348-392): re-check existence and
overwrite just before any work, then download, then convert.
`download a = Except.error e` models a raised download exception (the
`try`/`except` around `_download_attachment`); `convert a` models
`convert_attachment_to_markdown`, whose raising is likewise an
`Except.error` caught by the surrounding `try`/`except`.  The post-item
call to `_maybe_free_worker_memory` at line 390 cannot alter this
outcome, but it can raise; the full worker body including that call is
`processAttachmentWorker` below, which returns exactly this outcome
whenever the cleanup does not raise. -/
def processAttachment (onDisk : FsPath → Bool) (overwrite : Bool)
    (download : AttachmentMetadata → Except String Unit)
    (convert : AttachmentMetadata → Except String ConversionResult)
    (outputDir : FsPath) (a : AttachmentMetadata) : ConversionResult :=
  let outputPath := exporterOutputPath outputDir a
  if onDisk outputPath && !overwrite then
    { source := sourceName a, output := outputPath, status := Status.skipped }
  else
    let filePath := tempName a
    match download a with
    | Except.error _ =>
        { source := filePath, output := outputPath, status := Status.skipped }
    | Except.ok _ =>
      match convert a with
      | Except.error _ =>
          { source := filePath, output := outputPath, status := Status.skipped }
      | Except.ok result => result

/-- The dry-run branch of `export_library`
(`zotero_files2md/exporter.py`, lines 140-150): one `dry-run` outcome per
attachment, built from the resolved path alone — no filter, no download,
no write, no directory creation. -/
def exportRunDry (outputDir : FsPath) (atts : List AttachmentMetadata) :
    List ConversionResult :=
  atts.map (fun a =>
    { source := sourceName a
      output := exporterOutputPath outputDir a
      status := Status.dryRun })

/-- The non-dry-run result list of `export_library`
(`zotero_files2md/exporter.py`, lines 152-284): the synthesized skips of
the pre-concurrency filter followed by one `_process_attachment` result
per accepted item.  Worker completion order is immaterial because the
source stores each result back at its item index
(`processed[future_to_index[future]] = future.result()`).  The run model
uses the outcome computation `processAttachment`: it describes the runs
in which no worker's post-item memory cleanup raises (a raise there
aborts the run and produces no summary at all; that escape is settled
separately through `processAttachmentWorker`). -/
def exportRunResults (onDisk : FsPath → Bool) (overwrite : Bool)
    (download : AttachmentMetadata → Except String Unit)
    (convert : AttachmentMetadata → Except String ConversionResult)
    (outputDir : FsPath) (atts : List AttachmentMetadata) : List ConversionResult :=
  (exportFilter onDisk overwrite outputDir atts []).1 ++
    (exportFilter onDisk overwrite outputDir atts []).2.map
      (processAttachment onDisk overwrite download convert outputDir)

/-- Embeds `export_library` (`zotero_files2md/exporter.py`, lines 114-284) as a
function from the external-world oracles to the aggregated result list:
the dry-run branch short-circuits before the filter and the workers. -/
def export_library_results (dryRun : Bool) (onDisk : FsPath → Bool) (overwrite : Bool)
    (download : AttachmentMetadata → Except String Unit)
    (convert : AttachmentMetadata → Except String ConversionResult)
    (outputDir : FsPath) (atts : List AttachmentMetadata) : List ConversionResult :=
  if dryRun then exportRunDry outputDir atts
  else exportRunResults onDisk overwrite download convert outputDir atts

/-- Unfolding equation of `exportFilter` on a cons cell. -/
theorem exportFilter_cons (onDisk : FsPath → Bool) (overwrite : Bool) (outputDir : FsPath)
    (a : AttachmentMetadata) (rest : List AttachmentMetadata) (seen : List FsPath) :
    exportFilter onDisk overwrite outputDir (a :: rest) seen =
      if exporterOutputPath outputDir a ∈ seen then
        (skippedOutcome outputDir a :: (exportFilter onDisk overwrite outputDir rest seen).1,
          (exportFilter onDisk overwrite outputDir rest seen).2)
      else if onDisk (exporterOutputPath outputDir a) && !overwrite then
        (skippedOutcome outputDir a :: (exportFilter onDisk overwrite outputDir rest seen).1,
          (exportFilter onDisk overwrite outputDir rest seen).2)
      else
        ((exportFilter onDisk overwrite outputDir rest
            (exporterOutputPath outputDir a :: seen)).1,
          a :: (exportFilter onDisk overwrite outputDir rest
            (exporterOutputPath outputDir a :: seen)).2) := rfl

/-- Every result synthesized by the filter is `skipped`. -/
theorem exportFilter_results_skipped (onDisk : FsPath → Bool) (ow : Bool) (outDir : FsPath) :
    ∀ (atts : List AttachmentMetadata) (seen : List FsPath),
      ∀ r ∈ (exportFilter onDisk ow outDir atts seen).1, r.status = Status.skipped := by
  intro atts
  induction atts with
  | nil =>
    intro seen r hr
    simp [exportFilter] at hr
  | cons a rest ih =>
    intro seen r hr
    rw [exportFilter_cons] at hr
    by_cases h1 : exporterOutputPath outDir a ∈ seen
    · rw [if_pos h1] at hr
      rcases List.mem_cons.mp hr with h | h
      · subst h; rfl
      · exact ih seen r h
    · rw [if_neg h1] at hr
      by_cases h2 : (onDisk (exporterOutputPath outDir a) && !ow) = true
      · rw [if_pos h2] at hr
        rcases List.mem_cons.mp hr with h | h
        · subst h; rfl
        · exact ih seen r h
      · rw [if_neg h2] at hr
        exact ih _ r hr

/-- Every attachment either enters the accepted work set or contributes
exactly one synthesized result. -/
theorem exportFilter_length (onDisk : FsPath → Bool) (ow : Bool) (outDir : FsPath) :
    ∀ (atts : List AttachmentMetadata) (seen : List FsPath),
      (exportFilter onDisk ow outDir atts seen).1.length +
        (exportFilter onDisk ow outDir atts seen).2.length = atts.length := by
  intro atts
  induction atts with
  | nil =>
    intro seen
    simp [exportFilter]
  | cons a rest ih =>
    intro seen
    rw [exportFilter_cons]
    by_cases h1 : exporterOutputPath outDir a ∈ seen
    · rw [if_pos h1]
      have := ih seen
      simp only [List.length_cons]
      omega
    · rw [if_neg h1]
      by_cases h2 : (onDisk (exporterOutputPath outDir a) && !ow) = true
      · rw [if_pos h2]
        have := ih seen
        simp only [List.length_cons]
        omega
      · rw [if_neg h2]
        have := ih (exporterOutputPath outDir a :: seen)
        simp only [List.length_cons]
        omega

/-- The accepted work set is a sublist of the input: it preserves the
original source order. -/
theorem exportFilter_accepted_sublist (onDisk : FsPath → Bool) (ow : Bool) (outDir : FsPath) :
    ∀ (atts : List AttachmentMetadata) (seen : List FsPath),
      (exportFilter onDisk ow outDir atts seen).2.Sublist atts := by
  intro atts
  induction atts with
  | nil =>
    intro seen
    simp [exportFilter]
  | cons a rest ih =>
    intro seen
    rw [exportFilter_cons]
    by_cases h1 : exporterOutputPath outDir a ∈ seen
    · rw [if_pos h1]
      exact (ih seen).cons a
    · rw [if_neg h1]
      by_cases h2 : (onDisk (exporterOutputPath outDir a) && !ow) = true
      · rw [if_pos h2]
        exact (ih seen).cons a
      · rw [if_neg h2]
        exact (ih _).cons₂ a

/-- The resolved path of an accepted item was not in the `seen` set the
filter started from. -/
theorem exportFilter_accepted_not_seen (onDisk : FsPath → Bool) (ow : Bool) (outDir : FsPath) :
    ∀ (atts : List AttachmentMetadata) (seen : List FsPath),
      ∀ b ∈ (exportFilter onDisk ow outDir atts seen).2,
        exporterOutputPath outDir b ∉ seen := by
  intro atts
  induction atts with
  | nil =>
    intro seen b hb
    simp [exportFilter] at hb
  | cons a rest ih =>
    intro seen b hb
    rw [exportFilter_cons] at hb
    by_cases h1 : exporterOutputPath outDir a ∈ seen
    · rw [if_pos h1] at hb
      exact ih seen b hb
    · rw [if_neg h1] at hb
      by_cases h2 : (onDisk (exporterOutputPath outDir a) && !ow) = true
      · rw [if_pos h2] at hb
        exact ih seen b hb
      · rw [if_neg h2] at hb
        rcases List.mem_cons.mp hb with h | h
        · subst h; exact h1
        · have := ih _ b h
          intro hmem
          exact this (List.mem_cons_of_mem _ hmem)

/-- Accepted items never have a blocked path (a path existing on disk
while `overwrite` is unset). -/
theorem exportFilter_accepted_not_blocked (onDisk : FsPath → Bool) (ow : Bool) (outDir : FsPath) :
    ∀ (atts : List AttachmentMetadata) (seen : List FsPath),
      ∀ b ∈ (exportFilter onDisk ow outDir atts seen).2,
        (onDisk (exporterOutputPath outDir b) && !ow) = false := by
  intro atts
  induction atts with
  | nil =>
    intro seen b hb
    simp [exportFilter] at hb
  | cons a rest ih =>
    intro seen b hb
    rw [exportFilter_cons] at hb
    by_cases h1 : exporterOutputPath outDir a ∈ seen
    · rw [if_pos h1] at hb
      exact ih seen b hb
    · rw [if_neg h1] at hb
      by_cases h2 : (onDisk (exporterOutputPath outDir a) && !ow) = true
      · rw [if_pos h2] at hb
        exact ih seen b hb
      · rw [if_neg h2] at hb
        rcases List.mem_cons.mp hb with h | h
        · subst h
          exact Bool.eq_false_iff.mpr h2
        · exact ih _ b h

/-- Distinct accepted items resolve to pairwise distinct output paths. -/
theorem exportFilter_accepted_paths_nodup (onDisk : FsPath → Bool) (ow : Bool) (outDir : FsPath) :
    ∀ (atts : List AttachmentMetadata) (seen : List FsPath),
      ((exportFilter onDisk ow outDir atts seen).2.map (exporterOutputPath outDir)).Nodup := by
  intro atts
  induction atts with
  | nil =>
    intro seen
    simp [exportFilter]
  | cons a rest ih =>
    intro seen
    rw [exportFilter_cons]
    by_cases h1 : exporterOutputPath outDir a ∈ seen
    · rw [if_pos h1]
      exact ih seen
    · rw [if_neg h1]
      by_cases h2 : (onDisk (exporterOutputPath outDir a) && !ow) = true
      · rw [if_pos h2]
        exact ih seen
      · rw [if_neg h2]
        show ((a :: (exportFilter onDisk ow outDir rest
            (exporterOutputPath outDir a :: seen)).2).map (exporterOutputPath outDir)).Nodup
        rw [List.map_cons, List.nodup_cons]
        constructor
        · intro hmem
          rcases List.mem_map.mp hmem with ⟨b, hb, hpath⟩
          have hns := exportFilter_accepted_not_seen onDisk ow outDir rest
            (exporterOutputPath outDir a :: seen) b hb
          apply hns
          rw [hpath]
          exact List.mem_cons_self _ _
        · exact ih _

/-- First occurrence wins: every accepted item is the first item of the
input sequence that resolves to its output path. -/
theorem exportFilter_first_wins (onDisk : FsPath → Bool) (ow : Bool) (outDir : FsPath) :
    ∀ (atts : List AttachmentMetadata) (seen : List FsPath),
      ∀ b ∈ (exportFilter onDisk ow outDir atts seen).2,
        atts.find? (fun x =>
          exporterOutputPath outDir x == exporterOutputPath outDir b) = some b := by
  intro atts
  induction atts with
  | nil =>
    intro seen b hb
    simp [exportFilter] at hb
  | cons a rest ih =>
    intro seen b hb
    rw [exportFilter_cons] at hb
    by_cases h1 : exporterOutputPath outDir a ∈ seen
    · rw [if_pos h1] at hb
      have hne : (exporterOutputPath outDir a == exporterOutputPath outDir b) = false := by
        rcases hbe : exporterOutputPath outDir a == exporterOutputPath outDir b with _ | _
        · rfl
        · exfalso
          have heq : exporterOutputPath outDir a = exporterOutputPath outDir b := by
            exact eq_of_beq hbe
          have := exportFilter_accepted_not_seen onDisk ow outDir rest seen b hb
          rw [← heq] at this
          exact this h1
      rw [List.find?_cons_of_neg _ (by simp [hne]), ih seen b hb]
    · rw [if_neg h1] at hb
      by_cases h2 : (onDisk (exporterOutputPath outDir a) && !ow) = true
      · rw [if_pos h2] at hb
        have hne : (exporterOutputPath outDir a == exporterOutputPath outDir b) = false := by
          rcases hbe : exporterOutputPath outDir a == exporterOutputPath outDir b with _ | _
          · rfl
          · exfalso
            have heq : exporterOutputPath outDir a = exporterOutputPath outDir b := by
              exact eq_of_beq hbe
            have := exportFilter_accepted_not_blocked onDisk ow outDir rest seen b hb
            rw [← heq] at this
            rw [this] at h2
            exact Bool.false_ne_true h2
        rw [List.find?_cons_of_neg _ (by simp [hne]), ih seen b hb]
      · rw [if_neg h2] at hb
        rcases List.mem_cons.mp hb with h | h
        · subst h
          exact List.find?_cons_of_pos _ (by simp)
        · have hne : (exporterOutputPath outDir a == exporterOutputPath outDir b) = false := by
            rcases hbe : exporterOutputPath outDir a == exporterOutputPath outDir b with _ | _
            · rfl
            · exfalso
              have heq : exporterOutputPath outDir a = exporterOutputPath outDir b := by
                exact eq_of_beq hbe
              have := exportFilter_accepted_not_seen onDisk ow outDir rest
                (exporterOutputPath outDir a :: seen) b h
              rw [← heq] at this
              exact this (List.mem_cons_self _ _)
          rw [List.find?_cons_of_neg _ (by simp [hne]), ih _ b h]

/-- Counting a value in a duplicate-free list gives at most one. -/
theorem nodup_countP_beq_le_one {α : Type} [BEq α] [LawfulBEq α] (l : List α) (h : l.Nodup)
    (x : α) : l.countP (fun y => y == x) ≤ 1 := by
  induction l with
  | nil => simp
  | cons a as ih =>
    rcases List.nodup_cons.mp h with ⟨hna, hnd⟩
    rw [List.countP_cons]
    by_cases hax : a = x
    · subst hax
      have h0 : as.countP (fun y => y == a) = 0 := by
        rw [List.countP_eq_zero]
        intro y hy
        simp only [beq_iff_eq]
        intro hya
        subst hya
        exact hna hy
      simp [h0]
    · have hf : (a == x) = false := by simp [hax]
      simp only [hf]
      simpa using ih hnd

/-- A blocked item (path on disk, overwrite unset) always contributes a
synthesized `skipped` outcome. -/
theorem exportFilter_blocked_mem (onDisk : FsPath → Bool) (ow : Bool) (outDir : FsPath) :
    ∀ (atts : List AttachmentMetadata) (seen : List FsPath) (a : AttachmentMetadata),
      a ∈ atts → (onDisk (exporterOutputPath outDir a) && !ow) = true →
        skippedOutcome outDir a ∈ (exportFilter onDisk ow outDir atts seen).1 := by
  intro atts
  induction atts with
  | nil =>
    intro seen a ha
    simp at ha
  | cons x rest ih =>
    intro seen a ha hblock
    rw [exportFilter_cons]
    rcases List.mem_cons.mp ha with h | h
    · subst h
      by_cases h1 : exporterOutputPath outDir a ∈ seen
      · rw [if_pos h1]
        exact List.mem_cons_self _ _
      · rw [if_neg h1, if_pos hblock]
        exact List.mem_cons_self _ _
    · by_cases h1 : exporterOutputPath outDir x ∈ seen
      · rw [if_pos h1]
        exact List.mem_cons_of_mem _ (ih seen a h hblock)
      · rw [if_neg h1]
        by_cases h2 : (onDisk (exporterOutputPath outDir x) && !ow) = true
        · rw [if_pos h2]
          exact List.mem_cons_of_mem _ (ih seen a h hblock)
        · rw [if_neg h2]
          exact ih _ a h hblock

/-- First of two attachments resolving to the same output path. -/
def attC3A : AttachmentMetadata :=
  { attachmentKey := "KEYA"
    parentItemKey := some "P1"
    title := some "Paper"
    parentTitle := some "Shared Parent"
    filename := some "paper.pdf"
    parentCitationKey := some "Smith2020" }

/-- Second attachment, resolving to the same output path as `attC3A`. -/
def attC3B : AttachmentMetadata :=
  { attC3A with attachmentKey := "KEYB", filename := some "paper-v2.pdf" }

/-- A download oracle in which every download raises. -/
def downloadFailC3 : AttachmentMetadata → Except String Unit :=
  fun _ => Except.error "network unreachable"

/-- A conversion oracle that always succeeds and writes to the path the
exporter resolved. -/
def convertOkC3 : AttachmentMetadata → Except String ConversionResult :=
  fun a =>
    Except.ok
      { source := tempName a
        output := exporterOutputPath ["out"] a
        status := Status.converted }

/-- C3, counterexample.  Attachments `attC3A` and `attC3B` resolve to the
same output path, the path is absent from disk (so the skip-existing
branch never applies), yet the run produces no `converted` or `dry-run`
outcome at all: the single accepted candidate fails its download and is
skipped.  The claim allows "neither" only when skip-existing applies
first, so the claim as stated is false on this input. -/
theorem exportRun_dedup_counterexample :
    exporterOutputPath ["out"] attC3A = exporterOutputPath ["out"] attC3B ∧
      attC3A ≠ attC3B ∧
      (∀ result ∈ exportRunResults (fun _ => false) false downloadFailC3 convertOkC3 ["out"]
        [attC3A, attC3B], result.status = Status.skipped) ∧
      (exportRunResults (fun _ => false) false downloadFailC3 convertOkC3 ["out"]
        [attC3A, attC3B]).countP (fun r => !(r.status == Status.skipped)) = 0 := by
  refine ⟨by decide, by decide, by decide, by decide⟩

/-- C3, amended.  For the dedup filter and the run built on it: the
accepted work set preserves source order (it is a sublist of the input);
accepted items resolve to pairwise distinct paths; every synthesized
outcome is `skipped`; every input item is either accepted or synthesizes
exactly one `skipped` outcome; every accepted item is the first input
item resolving to its path (first occurrence wins); the run result is
the synthesized skips of the pre-download filter phase followed by the
per-item pipeline results; and — provided the conversion engine writes
to the path the exporter resolved — at most one outcome per path is
`converted` or `dry-run` (exactly one only when the accepted candidate
survives; it too is skipped if its download or conversion fails). -/
theorem exportRun_dedup_amended (onDisk : FsPath → Bool) (ow : Bool)
    (download : AttachmentMetadata → Except String Unit)
    (convert : AttachmentMetadata → Except String ConversionResult)
    (outDir : FsPath) (atts : List AttachmentMetadata)
    (hconv : ∀ a r, convert a = Except.ok r → r.output = exporterOutputPath outDir a) :
    (exportFilter onDisk ow outDir atts []).2.Sublist atts ∧
      ((exportFilter onDisk ow outDir atts []).2.map (exporterOutputPath outDir)).Nodup ∧
      (∀ r ∈ (exportFilter onDisk ow outDir atts []).1, r.status = Status.skipped) ∧
      (exportFilter onDisk ow outDir atts []).1.length +
        (exportFilter onDisk ow outDir atts []).2.length = atts.length ∧
      (∀ b ∈ (exportFilter onDisk ow outDir atts []).2,
        atts.find? (fun x =>
          exporterOutputPath outDir x == exporterOutputPath outDir b) = some b) ∧
      exportRunResults onDisk ow download convert outDir atts =
        (exportFilter onDisk ow outDir atts []).1 ++
          (exportFilter onDisk ow outDir atts []).2.map
            (processAttachment onDisk ow download convert outDir) ∧
      (∀ p : FsPath,
        (exportRunResults onDisk ow download convert outDir atts).countP
          (fun r => r.output == p && !(r.status == Status.skipped)) ≤ 1) := by
  refine ⟨exportFilter_accepted_sublist onDisk ow outDir atts [],
    exportFilter_accepted_paths_nodup onDisk ow outDir atts [],
    exportFilter_results_skipped onDisk ow outDir atts [],
    exportFilter_length onDisk ow outDir atts [],
    exportFilter_first_wins onDisk ow outDir atts [], rfl, ?_⟩
  intro p
  unfold exportRunResults
  rw [List.countP_append, List.countP_map]
  have h0 : (exportFilter onDisk ow outDir atts []).1.countP
      (fun r => r.output == p && !(r.status == Status.skipped)) = 0 := by
    rw [List.countP_eq_zero]
    intro r hr
    have hs := exportFilter_results_skipped onDisk ow outDir atts [] r hr
    simp [hs]
  have hmono : (exportFilter onDisk ow outDir atts []).2.countP
      ((fun r => r.output == p && !(r.status == Status.skipped)) ∘
        processAttachment onDisk ow download convert outDir) ≤
      (exportFilter onDisk ow outDir atts []).2.countP
        (fun a => exporterOutputPath outDir a == p) := by
    apply List.countP_mono_left
    intro a ha hp
    simp only [Function.comp_apply] at hp
    by_cases hpre : (onDisk (exporterOutputPath outDir a) && !ow) = true
    · have heq : processAttachment onDisk ow download convert outDir a =
          { source := sourceName a
            output := exporterOutputPath outDir a
            status := Status.skipped } := by
        simp [processAttachment, hpre]
      rw [heq] at hp
      simp at hp
    · cases hd : download a with
      | error e =>
        have heq : processAttachment onDisk ow download convert outDir a =
            { source := tempName a
              output := exporterOutputPath outDir a
              status := Status.skipped } := by
          simp [processAttachment, hpre, hd]
        rw [heq] at hp
        simp at hp
      | ok u =>
        cases hc : convert a with
        | error e =>
          have heq : processAttachment onDisk ow download convert outDir a =
              { source := tempName a
                output := exporterOutputPath outDir a
                status := Status.skipped } := by
            simp [processAttachment, hpre, hd, hc]
          rw [heq] at hp
          simp at hp
        | ok result =>
          have heq : processAttachment onDisk ow download convert outDir a = result := by
            simp [processAttachment, hpre, hd, hc]
          rw [heq] at hp
          simp only [Bool.and_eq_true] at hp
          rcases hp with ⟨h1, _⟩
          have hro := hconv a result hc
          rw [beq_iff_eq] at h1 ⊢
          rw [← hro]
          exact h1
  have hbound : (exportFilter onDisk ow outDir atts []).2.countP
      (fun a => exporterOutputPath outDir a == p) ≤ 1 := by
    have hnd := exportFilter_accepted_paths_nodup onDisk ow outDir atts []
    have hcount := nodup_countP_beq_le_one _ hnd p
    rw [List.countP_map] at hcount
    simpa only [Function.comp_def] using hcount
  omega

/-- C3, witness for the amended theorem: in the two-duplicate run above,
no path carries more than one non-skipped outcome. -/
theorem exportRun_dedup_amended_witness :
    (exportRunResults (fun _ => false) false downloadFailC3 convertOkC3 ["out"]
      [attC3A, attC3B]).countP
        (fun r => r.output == exporterOutputPath ["out"] attC3A &&
          !(r.status == Status.skipped)) ≤ 1 :=
  (exportRun_dedup_amended (fun _ => false) false downloadFailC3 convertOkC3 ["out"]
    [attC3A, attC3B]
    (by
      intro a r h
      injection h with h2
      rw [← h2])).2.2.2.2.2.2 (exporterOutputPath ["out"] attC3A)

/-- An attachment whose resolved output path already exists on disk. -/
def attC6 : AttachmentMetadata :=
  { attachmentKey := "C6KEY"
    parentItemKey := some "P6"
    title := some "Doc"
    parentTitle := some "Parent Work"
    filename := some "doc.pdf"
    parentCitationKey := some "Cite2021" }

/-- A filesystem on which exactly the resolved path of `attC6` exists. -/
def onDiskC6 : FsPath → Bool :=
  fun p => p == ["out", "Cite2021", "Doc.md"]

/-- C6, counterexample.  The exporter has no skip-existing-files setting
at all; with `overwrite` false, an item whose resolved path already
exists on disk is excluded from the work set up-front by the
pre-concurrency filter (lines 173-182) with a synthesized `skipped`
outcome — it is not added to the work set and left for the pipeline, as
the claim states for the case where skip-existing-files is unset. -/
theorem exportFilter_existing_counterexample :
    onDiskC6 (exporterOutputPath ["out"] attC6) = true ∧
      (exportFilter onDiskC6 false ["out"] [attC6] []).2 = [] ∧
      (exportFilter onDiskC6 false ["out"] [attC6] []).1 =
        [skippedOutcome ["out"] attC6] := by
  refine ⟨by decide, by decide, by decide⟩

/-- C6, amended.  Unconditionally — the exporter has no
skip-existing-files flag — an item whose resolved output path exists on
disk while `overwrite` is false contributes a synthesized `skipped`
outcome from the up-front filter, never enters the accepted work set,
and would also be skipped by the pipeline itself, which re-checks
existence just before doing any work. -/
theorem exportFilter_existing_excluded (onDisk : FsPath → Bool)
    (download : AttachmentMetadata → Except String Unit)
    (convert : AttachmentMetadata → Except String ConversionResult)
    (outDir : FsPath) (atts : List AttachmentMetadata) (a : AttachmentMetadata)
    (ha : onDisk (exporterOutputPath outDir a) = true) :
    (a ∈ atts → skippedOutcome outDir a ∈ (exportFilter onDisk false outDir atts []).1) ∧
      a ∉ (exportFilter onDisk false outDir atts []).2 ∧
      (processAttachment onDisk false download convert outDir a).status = Status.skipped := by
  have hblock : (onDisk (exporterOutputPath outDir a) && !false) = true := by
    rw [ha]
    rfl
  refine ⟨?_, ?_, ?_⟩
  · intro hmem
    exact exportFilter_blocked_mem onDisk false outDir atts [] a hmem hblock
  · intro hmem
    have hnb := exportFilter_accepted_not_blocked onDisk false outDir atts [] a hmem
    rw [hblock] at hnb
    simp at hnb
  · simp [processAttachment, hblock, ha]

/-- C6, witness: the concrete scenario of the counterexample input run
through the amended theorem. -/
theorem exportFilter_existing_excluded_witness :
    skippedOutcome ["out"] attC6 ∈ (exportFilter onDiskC6 false ["out"] [attC6] []).1 ∧
      attC6 ∉ (exportFilter onDiskC6 false ["out"] [attC6] []).2 ∧
      (processAttachment onDiskC6 false downloadFailC3 convertOkC3 ["out"] attC6).status =
        Status.skipped := by
  have h := exportFilter_existing_excluded onDiskC6 downloadFailC3 convertOkC3 ["out"]
    [attC6] attC6 (by decide)
  exact ⟨h.1 (List.mem_cons_self _ _), h.2.1, h.2.2⟩

/-- An attachment with no optional metadata at all. -/
def attC8 : AttachmentMetadata :=
  { attachmentKey := "K8"
    parentItemKey := none
    title := none
    parentTitle := none
    filename := none
    parentCitationKey := none }

/-- A download oracle raising a connection error. -/
def downloadErrC8 : AttachmentMetadata → Except String Unit :=
  fun _ => Except.error "connection reset"

/-- A conversion oracle raising an engine error. -/
def convertErrC8 : AttachmentMetadata → Except String ConversionResult :=
  fun _ => Except.error "engine failure"

/-- The torch runtime as `_maybe_free_worker_memory` observes it:
importing the module can fail (guarded), and the availability query and
the cache release can each raise (unguarded). -/
inductive TorchCleanupRuntime where
  | importFail
  | imported (isAvailable : Except String Bool) (emptyCache : Except String Unit)
deriving Repr

/-- Embeds `_maybe_free_worker_memory` (`zotero_files2md/exporter.py`,
lines 331-345).  Only the `import torch` is inside a `try`/`except`;
`torch.cuda.is_available()` and `torch.cuda.empty_cache()` run outside
any handler, so their raising propagates to the caller
(`Except.error`).  `count` is the worker-local `cuda_cleanup_count`
read with default 0; it is incremented after the availability check and
the cache release runs on every fifth increment.  `gc.collect()` is a
non-raising standard-library call and performs no observable state
change here. -/
def maybeFreeWorkerMemory (torchCleanup : TorchCleanupRuntime) (count : Nat) :
    Except String Nat :=
  match torchCleanup with
  | TorchCleanupRuntime.importFail => Except.ok count
  | TorchCleanupRuntime.imported isAvailable emptyCache =>
    match isAvailable with
    | Except.error e => Except.error e
    | Except.ok false => Except.ok count
    | Except.ok true =>
      let count := count + 1
      if count % 5 ≠ 0 then Except.ok count
      else
        match emptyCache with
        | Except.error e => Except.error e
        | Except.ok _ => Except.ok count

/-- Embeds `_process_attachment` (`zotero_files2md/exporter.py`, lines
348-392) in full, including the call to `_maybe_free_worker_memory` at
line 390.  The existence/overwrite pre-check and the download-failure
branch return before that call; the conversion branch (success or
caught failure) runs it, and a raise there propagates out of the worker
(`Except.error`).  On a normal return the worker yields the outcome
computed by `processAttachment` together with the updated worker-local
cleanup counter. -/
def processAttachmentWorker (onDisk : FsPath → Bool) (overwrite : Bool)
    (download : AttachmentMetadata → Except String Unit)
    (convert : AttachmentMetadata → Except String ConversionResult)
    (torchCleanup : TorchCleanupRuntime) (cleanupCount : Nat)
    (outputDir : FsPath) (a : AttachmentMetadata) :
    Except String (ConversionResult × Nat) :=
  let outputPath := exporterOutputPath outputDir a
  if onDisk outputPath && !overwrite then
    Except.ok ({ source := sourceName a, output := outputPath, status := Status.skipped },
      cleanupCount)
  else
    let filePath := tempName a
    match download a with
    | Except.error _ =>
      Except.ok ({ source := filePath, output := outputPath, status := Status.skipped },
        cleanupCount)
    | Except.ok _ =>
      let result :=
        match convert a with
        | Except.error _ =>
          { source := filePath, output := outputPath, status := Status.skipped }
        | Except.ok r => r
      match maybeFreeWorkerMemory torchCleanup cleanupCount with
      | Except.error e => Except.error e
      | Except.ok newCount => Except.ok (result, newCount)

/-- Injectivity of a successful worker return. -/
theorem ok_pair_inj {r1 r2 : ConversionResult} {c1 c2 : Nat}
    (h : (Except.ok (r1, c1) : Except String (ConversionResult × Nat)) =
      Except.ok (r2, c2)) : r1 = r2 ∧ c1 = c2 := by
  injection h with h1
  rw [Prod.mk.injEq] at h1
  exact h1

/-- A download oracle that always succeeds. -/
def downloadOkC8 : AttachmentMetadata → Except String Unit :=
  fun _ => Except.ok ()

/-- A conversion oracle that always succeeds. -/
def convertOkC8 : AttachmentMetadata → Except String ConversionResult :=
  fun a =>
    Except.ok
      { source := tempName a
        output := exporterOutputPath ["out"] a
        status := Status.converted }

/-- A torch runtime whose unguarded availability query raises. -/
def torchCleanupRaiseC8 : TorchCleanupRuntime :=
  TorchCleanupRuntime.imported (Except.error "CUDA driver error") (Except.ok ())

/-- Claim C8, counterexample.  The download and the conversion both
succeed, yet the worker does not return a PipelineOutcome: the
post-item `_maybe_free_worker_memory` call guards only its torch
import, so its unguarded `torch.cuda.is_available()` raising propagates
out of `_process_attachment` to the caller — falsifying "returns a
PipelineOutcome and never propagates an exception to the caller". -/
theorem processAttachmentWorker_counterexample :
    downloadOkC8 attC8 = Except.ok () ∧
      convertOkC8 attC8 =
        Except.ok
          { source := tempName attC8
            output := exporterOutputPath ["out"] attC8
            status := Status.converted } ∧
      processAttachmentWorker (fun _ => false) false downloadOkC8 convertOkC8
          torchCleanupRaiseC8 0 ["out"] attC8 =
        Except.error "CUDA driver error" :=
  ⟨rfl, rfl, rfl⟩

/-- Claim C8, amended.  Any download failure and any conversion failure
is converted into a `skipped` outcome and never propagates: a failing
download returns a `skipped` outcome before the cleanup call ever runs,
and whenever the worker returns at all after a conversion failure the
outcome is `skipped`.  Whenever the post-item memory cleanup does not
raise, the worker returns exactly the outcome computed by
`processAttachment`.  The one escape is the cleanup helper itself,
which guards only its torch import: the only error the worker can
propagate is a raise of its unguarded accelerator queries. -/
theorem processAttachmentWorker_amended (onDisk : FsPath → Bool) (ow : Bool)
    (download : AttachmentMetadata → Except String Unit)
    (convert : AttachmentMetadata → Except String ConversionResult)
    (torchCleanup : TorchCleanupRuntime) (cleanupCount : Nat)
    (outDir : FsPath) (a : AttachmentMetadata) :
    (∀ e, download a = Except.error e →
      ∃ r, processAttachmentWorker onDisk ow download convert torchCleanup cleanupCount
          outDir a = Except.ok (r, cleanupCount) ∧ r.status = Status.skipped) ∧
      (∀ e r c2, convert a = Except.error e →
        processAttachmentWorker onDisk ow download convert torchCleanup cleanupCount
            outDir a = Except.ok (r, c2) → r.status = Status.skipped) ∧
      (∀ c2, maybeFreeWorkerMemory torchCleanup cleanupCount = Except.ok c2 →
        ∃ c3, processAttachmentWorker onDisk ow download convert torchCleanup cleanupCount
            outDir a =
          Except.ok (processAttachment onDisk ow download convert outDir a, c3)) ∧
      (∀ e, processAttachmentWorker onDisk ow download convert torchCleanup cleanupCount
          outDir a = Except.error e →
        maybeFreeWorkerMemory torchCleanup cleanupCount = Except.error e) := by
  by_cases hpre : (onDisk (exporterOutputPath outDir a) && !ow) = true
  · have hw : processAttachmentWorker onDisk ow download convert torchCleanup cleanupCount
        outDir a =
        Except.ok
          ({ source := sourceName a
             output := exporterOutputPath outDir a
             status := Status.skipped }, cleanupCount) := by
      simp [processAttachmentWorker, hpre]
    have hp : processAttachment onDisk ow download convert outDir a =
        { source := sourceName a
          output := exporterOutputPath outDir a
          status := Status.skipped } := by
      simp [processAttachment, hpre]
    refine ⟨fun e he => ⟨_, hw, rfl⟩, fun e r c2 hce hab => ?_,
      fun c2 hm2 => ⟨cleanupCount, by rw [hw, hp]⟩, fun e he => ?_⟩
    · rw [hw] at hab
      rw [← (ok_pair_inj hab).1]
    · rw [hw] at he
      exact absurd he (by simp)
  · cases hd : download a with
    | error e0 =>
      have hw : processAttachmentWorker onDisk ow download convert torchCleanup cleanupCount
          outDir a =
          Except.ok
            ({ source := tempName a
               output := exporterOutputPath outDir a
               status := Status.skipped }, cleanupCount) := by
        simp [processAttachmentWorker, hpre, hd]
      have hp : processAttachment onDisk ow download convert outDir a =
          { source := tempName a
            output := exporterOutputPath outDir a
            status := Status.skipped } := by
        simp [processAttachment, hpre, hd]
      refine ⟨fun e he => ⟨_, hw, rfl⟩, fun e r c2 hce hab => ?_,
        fun c2 hm2 => ⟨cleanupCount, by rw [hw, hp]⟩, fun e he => ?_⟩
      · rw [hw] at hab
        rw [← (ok_pair_inj hab).1]
      · rw [hw] at he
        exact absurd he (by simp)
    | ok u =>
      cases hm : maybeFreeWorkerMemory torchCleanup cleanupCount with
      | error e2 =>
        have hw : processAttachmentWorker onDisk ow download convert torchCleanup
            cleanupCount outDir a = Except.error e2 := by
          simp [processAttachmentWorker, hpre, hd, hm]
        refine ⟨fun e he => absurd he (by simp), fun e r c2 hce hab => ?_,
          fun c2 hm2 => absurd hm2 (by simp), fun e he => ?_⟩
        · rw [hw] at hab
          exact absurd hab (by simp)
        · rw [hw] at he
          injection he with h1
          rw [h1]
      | ok c0 =>
        cases hc : convert a with
        | error e1 =>
          have hw : processAttachmentWorker onDisk ow download convert torchCleanup
              cleanupCount outDir a =
              Except.ok
                ({ source := tempName a
                   output := exporterOutputPath outDir a
                   status := Status.skipped }, c0) := by
            simp [processAttachmentWorker, hpre, hd, hc, hm]
          have hp : processAttachment onDisk ow download convert outDir a =
              { source := tempName a
                output := exporterOutputPath outDir a
                status := Status.skipped } := by
            simp [processAttachment, hpre, hd, hc]
          refine ⟨fun e he => absurd he (by simp), fun e r c2 hce hab => ?_,
            fun c2 hm2 => ⟨c0, by rw [hw, hp]⟩, fun e he => ?_⟩
          · rw [hw] at hab
            rw [← (ok_pair_inj hab).1]
          · rw [hw] at he
            exact absurd he (by simp)
        | ok r0 =>
          have hw : processAttachmentWorker onDisk ow download convert torchCleanup
              cleanupCount outDir a = Except.ok (r0, c0) := by
            simp [processAttachmentWorker, hpre, hd, hc, hm]
          have hp : processAttachment onDisk ow download convert outDir a = r0 := by
            simp [processAttachment, hpre, hd, hc]
          refine ⟨fun e he => absurd he (by simp), fun e r c2 hce hab => absurd hce (by simp),
            fun c2 hm2 => ⟨c0, by rw [hw, hp]⟩, fun e he => ?_⟩
          rw [hw] at he
          exact absurd he (by simp)

/-- Claim C8, witness for the amended theorem: a failing download on a
concrete attachment yields a `skipped` outcome from the full worker,
with the cleanup counter unchanged. -/
theorem processAttachmentWorker_amended_witness :
    ∃ r, processAttachmentWorker (fun _ => false) false downloadErrC8 convertErrC8
        TorchCleanupRuntime.importFail 0 ["out"] attC8 = Except.ok (r, 0) ∧
      r.status = Status.skipped :=
  (processAttachmentWorker_amended (fun _ => false) false downloadErrC8 convertErrC8
    TorchCleanupRuntime.importFail 0 ["out"] attC8).1 "connection reset" rfl


/-- Accelerator device argument of the render engine
(`docling` `AcceleratorDevice`; only the members the converter uses). -/
inductive AccelDevice where
  | auto
  | cuda
  | cpu
deriving DecidableEq, Repr

/-- One link of a Python exception cause chain as `_is_cuda_oom` observes
it: the lowered `str(err)` message, and whether the link is a typed
`torch.OutOfMemoryError`. -/
structure ExcNode where
  message : String
  isTorchOomType : Bool
deriving DecidableEq, Repr

/-- A Python exception as a finite cause chain
(`err, err.__cause__ or err.__context__, ...`; the id-based cycle guard
of `iter_chain` makes the walk finite, so the chain is a list). -/
structure PyErr where
  chain : List ExcNode
deriving DecidableEq, Repr

/-- Containment of `pat` at any position of the haystack. -/
def occursAt (pat : List Char) : List Char → Bool
  | [] => pat.isEmpty
  | c :: rest => pat.isPrefixOf (c :: rest) || occursAt pat rest

/-- Python `pat in s` on strings: contiguous-substring test. -/
def strContains (s pat : String) : Bool :=
  occursAt pat.toList s.toList

/-- Python `str.lower()`, modelled for ASCII characters. -/
def lowerStr (s : String) : String :=
  ⟨s.toList.map Char.toLower⟩

/-- Embeds `_is_cuda_oom` (`zotero_files2md/converter.py`, lines 337-359): walk
the cause chain; a link signals accelerator memory exhaustion when its
lowered message contains "cuda out of memory", or contains both
"out of memory" and "cuda", or — when the torch runtime imports — the
link is a typed `torch.OutOfMemoryError`. -/
def isCudaOom (torchAvailable : Bool) (exc : PyErr) : Bool :=
  exc.chain.any fun node =>
    let message := lowerStr node.message
    strContains message "cuda out of memory" ||
      (strContains message "out of memory" && strContains message "cuda") ||
      (torchAvailable && node.isTorchOomType)

/-- Observable side effects of the converters: directory creation, an
invocation of the render engine with its device argument, the
converter-cache reset and accelerator-cache release of the recovery
path, and a successful file write. -/
inductive Effect where
  | mkdirEff (dir : FsPath)
  | renderEff (device : Option AccelDevice)
  | cacheResetEff
  | freeMemEff
  | writeEff (path : FsPath)
deriving DecidableEq, Repr

/-- Embeds `convert_attachment_to_markdown` (`zotero_files2md/converter.py`,
lines 24-120) as a function of the external world.  `onDisk` is the
existence oracle for the output path, `fileOnDisk` whether the
downloaded file is present, `render d` the outcome of `_render_markdown`
invoked with device argument `d` (`none` is the auto-resolving first
call; the recovery path passes `some AccelDevice.cpu`), `writeOk`
whether `write_bytes` succeeds, `torchAvailable` feeds the
out-of-memory classifier.  On a first-attempt failure classified as
accelerator memory exhaustion the converter resets its cached engine
(`_reset_converter_cache`), releases accelerator memory
(`_free_torch_memory`) and re-invokes the engine once forcing the CPU
device; any second failure yields `skipped`.  A non-classified failure
yields `skipped` immediately.  The uncaught `FileNotFoundError` for a
missing local file is the only `Except.error`. -/
def convertAttachmentFiles2md (onDisk : FsPath → Bool) (overwrite dryRun : Bool)
    (fileOnDisk : Bool) (torchAvailable : Bool)
    (render : Option AccelDevice → Except PyErr String) (writeOk : Bool)
    (strategy : ReferenceFolderName) (outputDir : FsPath) (a : AttachmentMetadata)
    (filePath : String) : Except String (ConversionResult × List Effect) :=
  let outputPath := compute_output_path a outputDir strategy
  if onDisk outputPath && !overwrite then
    Except.ok ({ source := filePath, output := outputPath, status := Status.skipped }, [])
  else if dryRun then
    Except.ok ({ source := filePath, output := outputPath, status := Status.dryRun }, [])
  else if !fileOnDisk then
    Except.error ("File not found for conversion: " ++ filePath)
  else
    match render none with
    | Except.ok _ =>
      if writeOk then
        Except.ok ({ source := filePath, output := outputPath, status := Status.converted },
          [Effect.mkdirEff outputPath.dropLast, Effect.renderEff none,
            Effect.writeEff outputPath])
      else
        Except.ok ({ source := filePath, output := outputPath, status := Status.skipped },
          [Effect.mkdirEff outputPath.dropLast, Effect.renderEff none])
    | Except.error exc =>
      if isCudaOom torchAvailable exc then
        match render (some AccelDevice.cpu) with
        | Except.ok _ =>
          if writeOk then
            Except.ok ({ source := filePath, output := outputPath, status := Status.converted },
              [Effect.mkdirEff outputPath.dropLast, Effect.renderEff none,
                Effect.cacheResetEff, Effect.freeMemEff,
                Effect.renderEff (some AccelDevice.cpu), Effect.writeEff outputPath])
          else
            Except.ok ({ source := filePath, output := outputPath, status := Status.skipped },
              [Effect.mkdirEff outputPath.dropLast, Effect.renderEff none,
                Effect.cacheResetEff, Effect.freeMemEff,
                Effect.renderEff (some AccelDevice.cpu)])
        | Except.error _ =>
          Except.ok ({ source := filePath, output := outputPath, status := Status.skipped },
            [Effect.mkdirEff outputPath.dropLast, Effect.renderEff none,
              Effect.cacheResetEff, Effect.freeMemEff,
              Effect.renderEff (some AccelDevice.cpu)])
      else
        Except.ok ({ source := filePath, output := outputPath, status := Status.skipped },
          [Effect.mkdirEff outputPath.dropLast, Effect.renderEff none])

/-- C4.  When the converter reaches rendering (path not blocked, not a
dry run, file present) and the first render attempt fails: if the error
is classified as accelerator memory exhaustion, the converter resets the
cached engine, releases accelerator memory, and re-invokes the engine
exactly once forcing the CPU device — a failing retry yields `skipped`
with exactly those five effects and no third render invocation, and a
successful retry proceeds to the write; if the first failure is not so
classified, the outcome is `skipped` immediately with a single render
invocation and no recovery effects. -/
theorem convertAttachment_oom_recovery (onDisk : FsPath → Bool) (ow : Bool)
    (torchAvailable : Bool) (render : Option AccelDevice → Except PyErr String)
    (writeOk : Bool) (strategy : ReferenceFolderName) (outputDir : FsPath)
    (a : AttachmentMetadata) (filePath : String) (exc : PyErr)
    (hskip : (onDisk (compute_output_path a outputDir strategy) && !ow) = false)
    (herr : render none = Except.error exc) :
    (isCudaOom torchAvailable exc = true →
      (∀ e2, render (some AccelDevice.cpu) = Except.error e2 →
        convertAttachmentFiles2md onDisk ow false true torchAvailable render writeOk
            strategy outputDir a filePath =
          Except.ok
            ({ source := filePath
               output := compute_output_path a outputDir strategy
               status := Status.skipped },
              [Effect.mkdirEff (compute_output_path a outputDir strategy).dropLast,
                Effect.renderEff none, Effect.cacheResetEff, Effect.freeMemEff,
                Effect.renderEff (some AccelDevice.cpu)])) ∧
      (∀ md, render (some AccelDevice.cpu) = Except.ok md →
        convertAttachmentFiles2md onDisk ow false true torchAvailable render writeOk
            strategy outputDir a filePath =
          Except.ok
            ({ source := filePath
               output := compute_output_path a outputDir strategy
               status := if writeOk then Status.converted else Status.skipped },
              [Effect.mkdirEff (compute_output_path a outputDir strategy).dropLast,
                Effect.renderEff none, Effect.cacheResetEff, Effect.freeMemEff,
                Effect.renderEff (some AccelDevice.cpu)] ++
                (if writeOk then
                  [Effect.writeEff (compute_output_path a outputDir strategy)]
                else [])))) ∧
    (isCudaOom torchAvailable exc = false →
      convertAttachmentFiles2md onDisk ow false true torchAvailable render writeOk
          strategy outputDir a filePath =
        Except.ok
          ({ source := filePath
             output := compute_output_path a outputDir strategy
             status := Status.skipped },
            [Effect.mkdirEff (compute_output_path a outputDir strategy).dropLast,
              Effect.renderEff none])) := by
  refine ⟨fun hoom => ⟨?_, ?_⟩, fun hnoom => ?_⟩
  · intro e2 hretry
    simp [convertAttachmentFiles2md, hskip, herr, hoom, hretry]
  · intro md hretry
    cases writeOk with
    | true => simp [convertAttachmentFiles2md, hskip, herr, hoom, hretry]
    | false => simp [convertAttachmentFiles2md, hskip, herr, hoom, hretry]
  · simp [convertAttachmentFiles2md, hskip, herr, hnoom]

/-- A first-attempt failure classified as accelerator memory exhaustion. -/
def oomErrC4 : PyErr :=
  { chain := [{ message := "CUDA out of memory", isTorchOomType := false }] }

/-- A render oracle whose first attempt signals memory exhaustion and
whose CPU retry also fails. -/
def renderOracleC4 : Option AccelDevice → Except PyErr String
  | none => Except.error oomErrC4
  | some _ =>
    Except.error { chain := [{ message := "render failed on cpu", isTorchOomType := false }] }

/-- An attachment for the recovery scenario. -/
def attC4 : AttachmentMetadata :=
  { attachmentKey := "K4"
    parentItemKey := some "P4"
    title := some "Deep Paper"
    parentTitle := some "Parent Four"
    filename := some "deep.pdf"
    parentCitationKey := some "Lee2022" }

/-- C4, witness: a memory-exhausted first attempt followed by a failing
CPU retry yields `skipped` with exactly one recovery retry recorded. -/
theorem convertAttachment_oom_recovery_witness :
    convertAttachmentFiles2md (fun _ => false) false false true false renderOracleC4 true
        ReferenceFolderName.citationKey ["out"] attC4 "K4.pdf" =
      Except.ok
        ({ source := "K4.pdf"
           output := compute_output_path attC4 ["out"] ReferenceFolderName.citationKey
           status := Status.skipped },
          [Effect.mkdirEff
              (compute_output_path attC4 ["out"] ReferenceFolderName.citationKey).dropLast,
            Effect.renderEff none, Effect.cacheResetEff, Effect.freeMemEff,
            Effect.renderEff (some AccelDevice.cpu)]) :=
  ((convertAttachment_oom_recovery (fun _ => false) false false renderOracleC4 true
      ReferenceFolderName.citationKey ["out"] attC4 "K4.pdf" oomErrC4 (by decide) rfl).1
    (by decide)).1 _ rfl

/-- Embeds `slugify` of the earlier revision (`zotero_pdf2md/utils.py`,
lines 33-49): unlike the current revision, the fallback is substituted
raw (not cleaned) and there is no final literal `item` default. -/
def slugifyPdf2md (value : Option String) (fallback : String) : String :=
  let text := cleanSlugText (value.getD "")
  let text := if text = "" then fallback else text
  ⟨text.toList.take 120⟩

/-- Embeds `convert_attachment_to_markdown` of the earlier revision
(`zotero_pdf2md/converter.py`, lines 18-80).  `ensure_directory` creates
the per-item output folder before both the existing-file check and the
dry-run check, so those branches already carry the directory-creation
effect.  `render` models `pymupdf4llm.to_markdown` and shares one
`try`/`except` with the write (`writeOk`), so a failing write also
yields `skipped`; the uncaught `FileNotFoundError` for a missing local
PDF is the only `Except.error`. -/
def convertAttachmentPdf2md (onDisk : FsPath → Bool) (overwrite dryRun : Bool)
    (pdfOnDisk : Bool) (render : Except String String) (writeOk : Bool)
    (outputDir : FsPath) (a : AttachmentMetadata) (pdfPath : String) :
    Except String (ConversionResult × List Effect) :=
  let outputFolder :=
    outputDir ++ [slugifyPdf2md a.parentTitle (pyOrStr a.parentItemKey "item")]
  let outputPath := outputFolder ++ [slugifyPdf2md a.title a.attachmentKey ++ ".md"]
  if onDisk outputPath && !overwrite then
    Except.ok ({ source := pdfPath, output := outputPath, status := Status.skipped },
      [Effect.mkdirEff outputFolder])
  else if dryRun then
    Except.ok ({ source := pdfPath, output := outputPath, status := Status.dryRun },
      [Effect.mkdirEff outputFolder])
  else if !pdfOnDisk then
    Except.error ("PDF file not found for conversion: " ++ pdfPath)
  else
    match render with
    | Except.error _ =>
      Except.ok ({ source := pdfPath, output := outputPath, status := Status.skipped },
        [Effect.mkdirEff outputFolder, Effect.renderEff none])
    | Except.ok _ =>
      if writeOk then
        Except.ok ({ source := pdfPath, output := outputPath, status := Status.converted },
          [Effect.mkdirEff outputFolder, Effect.renderEff none,
            Effect.writeEff outputPath])
      else
        Except.ok ({ source := pdfPath, output := outputPath, status := Status.skipped },
          [Effect.mkdirEff outputFolder, Effect.renderEff none])

/-- An attachment for the dry-run scenarios. -/
def attC5 : AttachmentMetadata :=
  { attachmentKey := "K5"
    parentItemKey := some "P5"
    title := some "Notes"
    parentTitle := some "Parent Five"
    filename := some "notes.pdf"
    parentCitationKey := none }

/-- A filesystem on which exactly the resolved path of `attC5` exists. -/
def onDiskC5 : FsPath → Bool :=
  fun p => p == ["out", "Parent-Five", "Notes.md"]

/-- C5, counterexample.  In the `zotero_pdf2md` revision, whose converter
the claim also covers, a dry run is not free of filesystem side effects
and does not tag every accepted item `dry-run`: `ensure_directory` runs
before the dry-run check, so the per-item output directory is created
(the `mkdirEff` in the trace), and an item whose output path already
exists is returned `skipped`, not `dry-run`, because the existing-file
check also precedes the dry-run check. -/
theorem dryRun_pdf2md_counterexample :
    convertAttachmentPdf2md (fun _ => false) false true true (Except.ok "md") true ["out"]
        attC5 "K5.pdf" =
      Except.ok
        ({ source := "K5.pdf"
           output := ["out", "Parent-Five", "Notes.md"]
           status := Status.dryRun },
          [Effect.mkdirEff ["out", "Parent-Five"]]) ∧
      convertAttachmentPdf2md onDiskC5 false true true (Except.ok "md") true ["out"]
          attC5 "K5.pdf" =
        Except.ok
          ({ source := "K5.pdf"
             output := ["out", "Parent-Five", "Notes.md"]
             status := Status.skipped },
            [Effect.mkdirEff ["out", "Parent-Five"]]) := by
  refine ⟨rfl, rfl⟩

/-- C5, amended.  In the current revision the dry-run branch of
`export_library` short-circuits before the filter and the workers: the
run result is the same whatever the filesystem, download and conversion
oracles do, it contains one `dry-run` outcome per attachment, and
nothing is downloaded, written or created.  In the earlier
`zotero_pdf2md` revision, the converter checks dry-run only after
creating the per-item output directory and after the existing-file
check: the directory-creation effect always happens, and the outcome is
`skipped` instead of `dry-run` when the output path already exists with
overwrite unset. -/
theorem dryRun_isolation_amended :
    (∀ (onDisk : FsPath → Bool) (ow : Bool)
      (download : AttachmentMetadata → Except String Unit)
      (convert : AttachmentMetadata → Except String ConversionResult)
      (outDir : FsPath) (atts : List AttachmentMetadata),
      export_library_results true onDisk ow download convert outDir atts =
        exportRunDry outDir atts) ∧
    (∀ (outDir : FsPath) (atts : List AttachmentMetadata),
      (exportRunDry outDir atts).length = atts.length ∧
      (exportRunDry outDir atts).all (fun r => r.status == Status.dryRun) = true) ∧
    (∀ (onDisk : FsPath → Bool) (ow pdfOnDisk : Bool) (render : Except String String)
      (writeOk : Bool) (outDir : FsPath) (a : AttachmentMetadata) (pdfPath : String),
      convertAttachmentPdf2md onDisk ow true pdfOnDisk render writeOk outDir a pdfPath =
        Except.ok
          ({ source := pdfPath
             output := (outDir ++ [slugifyPdf2md a.parentTitle (pyOrStr a.parentItemKey "item")]) ++
               [slugifyPdf2md a.title a.attachmentKey ++ ".md"]
             status :=
               if onDisk ((outDir ++
                    [slugifyPdf2md a.parentTitle (pyOrStr a.parentItemKey "item")]) ++
                    [slugifyPdf2md a.title a.attachmentKey ++ ".md"]) && !ow
               then Status.skipped
               else Status.dryRun },
            [Effect.mkdirEff
              (outDir ++ [slugifyPdf2md a.parentTitle (pyOrStr a.parentItemKey "item")])])) := by
  refine ⟨fun _ _ _ _ _ _ => rfl, ?_, ?_⟩
  · intro outDir atts
    constructor
    · simp [exportRunDry]
    · simp [exportRunDry, List.all_eq_true]
  · intro onDisk ow pdfOnDisk render writeOk outDir a pdfPath
    simp only [convertAttachmentPdf2md]
    split
    · rfl
    · rfl

/-- The torch runtime as `_detect_gpu_count` observes it: importing the
module can fail; `torch.cuda.is_available()` can raise or answer; and
`torch.cuda.device_count()` can raise or answer (a non-negative count,
hence `Nat`). -/
inductive TorchRuntime where
  | importFail
  | imported (isAvailable : Except String Bool) (deviceCount : Except String Nat)
deriving Repr

/-- Embeds `_detect_gpu_count` (`zotero_files2md/exporter.py`, lines 290-298):
a failing import returns 0; otherwise
`torch.cuda.device_count() if torch.cuda.is_available() else 0` is
evaluated inside a second `try`/`except` whose handler returns 0. -/
def detectGpuCount : TorchRuntime → Nat
  | TorchRuntime.importFail => 0
  | TorchRuntime.imported isAvailable deviceCount =>
    match isAvailable with
    | Except.error _ => 0
    | Except.ok false => 0
    | Except.ok true =>
      match deviceCount with
      | Except.error _ => 0
      | Except.ok n => n

/-- C9.  The resource topology detector is a total function into the
non-negative integers — no oracle behaviour makes it propagate an
error — and every failure mode of the torch runtime query (failing
import, raising availability check, accelerators unavailable, raising
device count) yields 0, while a successful query yields the reported
count. -/
theorem detectGpuCount_never_raises (rt : TorchRuntime) :
    0 ≤ detectGpuCount rt ∧
      detectGpuCount TorchRuntime.importFail = 0 ∧
      (∀ e count, detectGpuCount (TorchRuntime.imported (Except.error e) count) = 0) ∧
      (∀ count, detectGpuCount (TorchRuntime.imported (Except.ok false) count) = 0) ∧
      (∀ e, detectGpuCount (TorchRuntime.imported (Except.ok true) (Except.error e)) = 0) ∧
      (∀ n, detectGpuCount (TorchRuntime.imported (Except.ok true) (Except.ok n)) = n) :=
  ⟨Nat.zero_le _, rfl, fun _ _ => rfl, fun _ => rfl, fun _ => rfl, fun _ => rfl⟩
